import Mathlib

/-!
Verification of the pocket-js-slim signing subsystem: key and address
derivation, the canonical JSON stringifier, the transaction builder
orchestration, and two helpers of the JSON-RPC provider. Definitions are
shallow embeddings of the TypeScript sources under packages/; where a
utility module is absent from the sources and only its tests and the
specification describe it, the definition says so in its doc comment.
-/

namespace PocketJs

/- ===================== Definitions ===================== -/

/-- Error raised by the key and address derivation utilities when the key
material has the wrong length. -/
inductive DerivationError where
  | invalidKeyLength
deriving DecidableEq

/-- Modelled from the spec: `publicKeyFromPrivate` (packages/utils, file
public-key-from-private.ts, absent from the sources; its test and section
4.2 of the spec describe it). The input is 64 bytes of expanded private key
material; the result is bytes [32,64) of the input, unchanged; any other
input length fails with InvalidKeyLengthError. -/
def publicKeyFromPrivate (priv : List Nat) : Except DerivationError (List Nat) :=
  if priv.length = 64 then Except.ok (priv.drop 32)
  else Except.error DerivationError.invalidKeyLength

/-- The private key of the end-to-end test vector, as bytes. -/
def vectorPrivateKey : List Nat :=
  [31, 140, 189, 227, 14, 245, 169, 219, 10, 90, 157, 94, 180, 5, 54, 252,
   157, 239, 195, 24, 184, 88, 29, 84, 56, 8, 183, 80, 78, 9, 2, 188,
   178, 67, 178, 123, 201, 251, 229, 88, 4, 87, 164, 99, 112, 174, 95, 3,
   166, 246, 117, 54, 51, 229, 30, 253, 175, 44, 245, 52, 253, 194, 108, 195]

/-- The public key of the end-to-end test vector, as bytes. -/
def vectorPublicKey : List Nat :=
  [178, 67, 178, 123, 201, 251, 229, 88, 4, 87, 164, 99, 112, 174, 95, 3,
   166, 246, 117, 54, 51, 229, 30, 253, 175, 44, 245, 52, 253, 194, 108, 195]

/-- Equality of Except values is decidable when both components have
decidable equality. -/
instance instDecidableEqExcept {ε α : Type} [DecidableEq ε] [DecidableEq α] :
    DecidableEq (Except ε α) := fun a b =>
  match a, b with
  | Except.ok x, Except.ok y => decidable_of_iff (x = y) (by simp)
  | Except.error x, Except.error y => decidable_of_iff (x = y) (by simp)
  | Except.ok _, Except.error _ => isFalse (by simp)
  | Except.error _, Except.ok _ => isFalse (by simp)

/-- Word addition modulo 2 to the 32, the machine addition of the hash. -/
def add32 (a b : Nat) : Nat := (a + b) % 4294967296

/-- Right rotation of a 32-bit word by k positions. -/
def rotr32 (k a : Nat) : Nat := (a >>> k) ||| ((a % 2 ^ k) <<< (32 - k))

/-- Logical right shift of a 32-bit word by k positions. -/
def shr32 (k a : Nat) : Nat := a >>> k

/-- Bitwise complement within 32 bits. -/
def not32 (a : Nat) : Nat := Nat.xor a 4294967295

/-- Choice function of the SHA-256 round. -/
def ch32 (x y z : Nat) : Nat := Nat.xor (Nat.land x y) (Nat.land (not32 x) z)

/-- Majority function of the SHA-256 round. -/
def maj32 (x y z : Nat) : Nat := Nat.xor (Nat.land x y) (Nat.xor (Nat.land x z) (Nat.land y z))

/-- Upper-case sigma 0 of SHA-256. -/
def bigSigma0 (x : Nat) : Nat := Nat.xor (rotr32 2 x) (Nat.xor (rotr32 13 x) (rotr32 22 x))

/-- Upper-case sigma 1 of SHA-256. -/
def bigSigma1 (x : Nat) : Nat := Nat.xor (rotr32 6 x) (Nat.xor (rotr32 11 x) (rotr32 25 x))

/-- Lower-case sigma 0 of SHA-256. -/
def smallSigma0 (x : Nat) : Nat := Nat.xor (rotr32 7 x) (Nat.xor (rotr32 18 x) (shr32 3 x))

/-- Lower-case sigma 1 of SHA-256. -/
def smallSigma1 (x : Nat) : Nat := Nat.xor (rotr32 17 x) (Nat.xor (rotr32 19 x) (shr32 10 x))

/-- Round constants of SHA-256. -/
def sha256K : List Nat :=
  [1116352408, 1899447441, 3049323471, 3921009573, 961987163, 1508970993,
   2453635748, 2870763221, 3624381080, 310598401, 607225278, 1426881987,
   1925078388, 2162078206, 2614888103, 3248222580, 3835390401, 4022224774,
   264347078, 604807628, 770255983, 1249150122, 1555081692, 1996064986,
   2554220882, 2821834349, 2952996808, 3210313671, 3336571891, 3584528711,
   113926993, 338241895, 666307205, 773529912, 1294757372, 1396182291,
   1695183700, 1986661051, 2177026350, 2456956037, 2730485921, 2820302411,
   3259730800, 3345764771, 3516065817, 3600352804, 4094571909, 275423344,
   430227734, 506948616, 659060556, 883997877, 958139571, 1322822218,
   1537002063, 1747873779, 1955562222, 2024104815, 2227730452, 2361852424,
   2428436474, 2756734187, 3204031479, 3329325298]

/-- State of the SHA-256 compression function, eight 32-bit words. -/
structure Hash8 where
  a : Nat
  b : Nat
  c : Nat
  d : Nat
  e : Nat
  f : Nat
  g : Nat
  h : Nat

/-- Initial hash value of SHA-256. -/
def sha256InitHash : Hash8 :=
  Hash8.mk 1779033703 3144134277 1013904242 2773480762 1359893119 2600822924 528734635 1541459225

/-- One round of the SHA-256 compression function, taking the round
constant paired with the schedule word. -/
def roundStep (st : Hash8) (kw : Nat × Nat) : Hash8 :=
  let t1 := add32 st.h (add32 (bigSigma1 st.e) (add32 (ch32 st.e st.f st.g) (add32 kw.1 kw.2)))
  let t2 := add32 (bigSigma0 st.a) (maj32 st.a st.b st.c)
  Hash8.mk (add32 t1 t2) st.a st.b st.c (add32 st.d t1) st.e st.f st.g

/-- One extension step of the SHA-256 message schedule. -/
def extendStep (ws : List Nat) : List Nat :=
  ws ++ [add32 (smallSigma1 (ws.getD (ws.length - 2) 0))
          (add32 (ws.getD (ws.length - 7) 0)
            (add32 (smallSigma0 (ws.getD (ws.length - 15) 0)) (ws.getD (ws.length - 16) 0)))]

/-- Iterated schedule extension. -/
def buildSchedule : List Nat → Nat → List Nat
  | ws, 0 => ws
  | ws, n+1 => buildSchedule (extendStep ws) n

/-- SHA-256 compression of one 16-word block into the running hash. -/
def compressBlock (hs : Hash8) (block : List Nat) : Hash8 :=
  let st := (sha256K.zip (buildSchedule block 48)).foldl roundStep hs
  Hash8.mk (add32 hs.a st.a) (add32 hs.b st.b) (add32 hs.c st.c) (add32 hs.d st.d)
    (add32 hs.e st.e) (add32 hs.f st.f) (add32 hs.g st.g) (add32 hs.h st.h)

/-- Big-endian bytes of a natural number, in a fixed number of bytes. -/
def natToBytesBE : Nat → Nat → List Nat
  | 0, _ => []
  | k+1, n => natToBytesBE k (n / 256) ++ [n % 256]

/-- Big-endian 32-bit words of a byte sequence. -/
def bytesToWordsBE : List Nat → List Nat
  | b0 :: b1 :: b2 :: b3 :: rest =>
      (b0 * 16777216 + b1 * 65536 + b2 * 256 + b3) :: bytesToWordsBE rest
  | _ => []

/-- SHA-256 padding: the byte 0x80, zeros to 56 modulo 64, and the bit
length as eight big-endian bytes. -/
def sha256Pad (msg : List Nat) : List Nat :=
  msg ++ (128 :: List.replicate ((119 - msg.length % 64) % 64) 0) ++ natToBytesBE 8 (msg.length * 8)

/-- Fuel-driven grouping of a word list into 16-word blocks. -/
def wordChunks16Go : Nat → List Nat → List (List Nat)
  | 0, _ => []
  | _, [] => []
  | fuel+1, w :: ws => (w :: ws.take 15) :: wordChunks16Go fuel (ws.drop 15)

/-- Grouping of a word list into 16-word blocks. -/
def wordChunks16 (l : List Nat) : List (List Nat) := wordChunks16Go l.length l

/-- Big-endian byte rendering of the final hash state. -/
def hashToBytes (st : Hash8) : List Nat :=
  natToBytesBE 4 st.a ++ natToBytesBE 4 st.b ++ natToBytesBE 4 st.c ++ natToBytesBE 4 st.d ++
  natToBytesBE 4 st.e ++ natToBytesBE 4 st.f ++ natToBytesBE 4 st.g ++ natToBytesBE 4 st.h

/-- SHA-256 of a byte sequence, the protocol-mandated one-way hash of the
Pocket address derivation, as 32 bytes. -/
def sha256 (msg : List Nat) : List Nat :=
  hashToBytes ((wordChunks16 (bytesToWordsBE (sha256Pad msg))).foldl compressBlock sha256InitHash)

/-- Lowercase hexadecimal digits in order. -/
def lowerHexDigits : List Char := ("0123456789abcdef").data

/-- Lowercase hexadecimal digit of a value below 16. -/
def hexDigitChar (d : Nat) : Char := lowerHexDigits.getD d ('0')

/-- Two lowercase hexadecimal characters of one byte. -/
def byteHexChars (b : Nat) : List Char := [hexDigitChar (b / 16 % 16), hexDigitChar (b % 16)]

/-- Lowercase hexadecimal rendering of a byte sequence, as
Buffer.toString with the hex encoding produces. -/
def bytesToHex (bs : List Nat) : String := String.mk ((bs.map byteHexChars).flatten)

/-- Character class of the lowercase hexadecimal alphabet. -/
def isLowerHexDigit (c : Char) : Bool := c.isDigit || ('a' ≤ c && c ≤ 'f')

/-- Modelled from the spec: `getAddressFromPublicKey` (packages/utils,
file addr-from-pubkey.ts, absent from the sources; its test and section
4.2 of the spec describe it). The input is a 32-byte public key; the
result is the first 20 bytes of the protocol-mandated one-way hash of the
key (SHA-256, which reproduces the reference vector of the test),
rendered as lowercase hexadecimal; any other input length fails with
InvalidKeyLengthError. -/
def getAddressFromPublicKey (pub : List Nat) : Except DerivationError String :=
  if pub.length = 32 then Except.ok (bytesToHex ((sha256 pub).take 20))
  else Except.error DerivationError.invalidKeyLength

/-- The address of the end-to-end test vector. -/
def vectorAddress : String := "b50a6e20d3733fb89631ae32385b3c85c533c560"

/-- Account type returned by JsonRpcProvider.getType, one of the string
literal types node, app, account. -/
def getType (nodeFields appFields : List String) : String :=
  if !(nodeFields.contains ("service_url")) && appFields.contains ("max_relays") then ("app")
  else if nodeFields.contains ("service_url") && !(appFields.contains ("max_relays")) then ("node")
  else ("account")

/-- Alphabet of standard base64, as used by Buffer.toString with the
base64 encoding. -/
def base64Alphabet : List Char :=
  ("ABCDEFGHIJKLMNOPQRSTUVWXYZabcdefghijklmnopqrstuvwxyz0123456789+/").data

/-- Character of the base64 alphabet at a 6-bit index. -/
def base64Char (n : Nat) : Char := base64Alphabet.getD n ('A')

/-- Standard base64 rendering of a byte sequence, with trailing padding,
as Buffer.from(s).toString(base64) produces. -/
def base64Encode : List Nat → String
  | [] => ""
  | [a] => String.mk [base64Char (a / 4), base64Char (a % 4 * 16), '=', '=']
  | [a, b] => String.mk [base64Char (a / 4), base64Char (a % 4 * 16 + b / 16),
      base64Char (b % 16 * 4), '=']
  | a :: b :: c :: rest =>
      String.mk [base64Char (a / 4), base64Char (a % 4 * 16 + b / 16),
        base64Char (b % 16 * 4 + c / 64), base64Char (c % 64)] ++ base64Encode rest

/-- Bytes of a string under the single-byte reading used for basic-auth
credentials (the credentials of the tests are plain ASCII). -/
def stringToBytes (s : String) : List Nat := s.data.map Char.toNat

/-- Parsed form of a URL string as the WHATWG URL platform object exposes
it to ExtractBasicAuth: the scheme, the username and password components,
and the remainder (host, port, path and query) that follows the
credentials position. -/
structure URLModel where
  scheme : String
  username : String
  password : String
  rest : String
deriving DecidableEq

/-- Credentials segment of the URL serialization: empty when both
components are empty, otherwise username, an optional colon-password, and
the at sign. -/
def credPart (u : URLModel) : String :=
  if u.username = "" && u.password = "" then ""
  else u.username ++ (if u.password = "" then "" else (":") ++ u.password) ++ ("@")

/-- Serialization of the parsed URL, as URL.toString produces it. -/
def urlToString (u : URLModel) : String := u.scheme ++ ("://") ++ credPart u ++ u.rest

/-- ExtractBasicAuth from packages/provider/src/json-rpc-provider.ts: when
the URL carries no credentials the input string is returned unchanged with
no basicAuth; otherwise the credentials are stripped from the URL and
returned separately as a Basic authorization value. The WHATWG URL parsing
step is represented by taking the parsed URLModel as input; the input
string is its serialization. -/
def ExtractBasicAuth (u : URLModel) : String × Option String :=
  if u.username = "" && u.password = "" then (urlToString u, none)
  else (urlToString (URLModel.mk u.scheme ("") ("") u.rest),
    some (("Basic ") ++ base64Encode (stringToBytes (u.username ++ (":") ++ u.password))))

/-- Errors of the transaction builder: the three classes imported from its
errors module, the plain JavaScript Error, and the MissingMessageError
named by the specification taxonomy (which the builder code never
constructs). -/
inductive TxBuilderError where
  | noProvider (msg : String)
  | noSigner (msg : String)
  | invalidChainID (msg : String)
  | jsError (msg : String)
  | missingMessage
deriving DecidableEq

/-- Signer collaborator as the builder consumes it: sign over hex bytes,
and the reported public key and address, both hex strings. -/
structure SignerModel where
  sign : String → String
  getPublicKey : String
  getAddress : String

/-- Provider collaborator as the builder consumes it; the builder only
stores it and forwards raw transactions to it. -/
structure ProviderModel where
  sendTransaction : String → String

/-- TransactionBuilder state: the two collaborators and the chain
identifier (kept as a string since the TypeScript union type is erased at
runtime). -/
structure TransactionBuilder where
  provider : ProviderModel
  signer : SignerModel
  chainID : String

/-- Constructor of TransactionBuilder: requires both collaborators,
failing with NoProviderError first and NoSignerError second, and stores
them together with the chain identifier without substituting defaults. -/
def mkTransactionBuilder (provider : Option ProviderModel) (signer : Option SignerModel)
    (chainID : String) : Except TxBuilderError TransactionBuilder :=
  match provider with
  | none => Except.error (TxBuilderError.noProvider ("Please add a provider."))
  | some p =>
    match signer with
    | none => Except.error (TxBuilderError.noSigner ("Please add a signer."))
    | some s => Except.ok (TransactionBuilder.mk p s chainID)

/-- getChainID of TransactionBuilder. -/
def getChainID (b : TransactionBuilder) : String := b.chainID

/-- setChainID of TransactionBuilder: accepts exactly mainnet, testnet and
localnet, and fails with InvalidChainIDError otherwise. -/
def setChainID (b : TransactionBuilder) (id : String) : Except TxBuilderError TransactionBuilder :=
  if id = "mainnet" ∨ id = "testnet" ∨ id = "localnet" then
    Except.ok (TransactionBuilder.mk b.provider b.signer id)
  else
    Except.error (TxBuilderError.invalidChainID
      ("Invalid ChainID. Must be \"mainnet\", \"testnet\", or \"localnet\"."))

/-- Decimal digit character of a value below ten. -/
def digitChar : Nat → Char
  | 0 => '0'
  | 1 => '1'
  | 2 => '2'
  | 3 => '3'
  | 4 => '4'
  | 5 => '5'
  | 6 => '6'
  | 7 => '7'
  | 8 => '8'
  | _ => '9'

/-- Fuel-driven little-endian decimal digits of a natural number. -/
def decimalDigitsGo : Nat → Nat → List Nat
  | 0, _ => []
  | _+1, 0 => []
  | fuel+1, n+1 => ((n+1) % 10) :: decimalDigitsGo fuel ((n+1) / 10)

/-- Little-endian decimal digits of a natural number. -/
def decimalDigits (n : Nat) : List Nat := decimalDigitsGo n n

/-- Decimal string of a natural number, as BigInt.toString and the
toString of an integral Number below 1e21 produce: plain digits, no sign,
no exponent, no fractional part. -/
def decimalString (n : Nat) : String :=
  if n = 0 then ("0") else String.mk (((decimalDigits n).map digitChar).reverse)

/-- Decimal digit character class. -/
def isDecDigit (c : Char) : Bool := '0' ≤ c && c ≤ '9'

/-- Value of a decimal digit character. -/
def charDigitVal (c : Char) : Nat := c.toNat - 48

/-- Parse of a plain decimal digit string; none when the string is empty
or holds any non-digit character. -/
def parseDecimal (s : String) : Option Nat :=
  if !s.data.isEmpty && s.data.all isDecDigit then
    some (Nat.ofDigits 10 ((s.data.map charDigitVal).reverse))
  else none

/-- Number.MAX_SAFE_INTEGER, the bound of the sampled entropy value. -/
def maxSafeInteger : Nat := 2 ^ 53 - 1

/-- Modelled from the platform: Number applied to a decimal integer
string, exact for values below 2 to the 53 (the strings this file applies
it to stay below Number.MAX_SAFE_INTEGER, where float64 conversion is
lossless). -/
def jsNumberOfDecimal (s : String) : Nat := (parseDecimal s).getD 0

/-- Entropy nonce of createTransaction: the decimal rendering of the
sampled value r (which models Math.floor of Math.random times
Number.MAX_SAFE_INTEGER), passed through BigInt.toString, Number, and
toString as the code does. -/
def genEntropy (r : Nat) : String := decimalString (jsNumberOfDecimal (decimalString r))

/-- Transaction message consumed by createTransaction; its shape is
opaque to the orchestration, which only hands it to the encoder factory. -/
structure TxMsg where
  payload : String

/-- CoinDenom.Upokt, the denomination createTransaction always passes. -/
def coinDenomUpokt : String := "upokt"

/-- Default Pocket base fee of the builder, in uPOKT. -/
def DEFAULT_BASE_FEE : String := "10000"

/-- Transaction signature object assembled from the reported public key
and the returned signature bytes. -/
structure TxSignature where
  pubKey : List Nat
  signature : List Nat

/-- Encoder instance as createTransaction consumes it: the sign document
bytes and the final transaction bytes given a transaction signature. -/
structure TxEncoderModel where
  marshalStdSignDoc : List Nat
  marshalStdTx : TxSignature → List Nat

/-- Modelled from the spec: TxEncoderFactory.createEncoder (the factory
and encoder modules of packages/transaction-builder are absent from the
sources), abstracted as an arbitrary function of the entropy, chain
identifier, message, fee, denomination and memo. -/
def EncoderFactory : Type :=
  String → String → TxMsg → String → String → String → TxEncoderModel

/-- RawTxRequest pairing the originating address with the hex-encoded
transaction bytes. -/
structure RawTxRequest where
  address : String
  txHex : String
deriving DecidableEq

/-- Stages of one createTransaction call that touch the entropy source,
the encoder, or the signer, recorded in execution order. -/
inductive BuildEvent where
  | entropyGenerated
  | encoderConstructed
  | signerInvoked
deriving DecidableEq

/-- Value of one hexadecimal character, zero on other characters. -/
def hexCharVal (c : Char) : Nat :=
  if '0' ≤ c && c ≤ '9' then c.toNat - 48
  else if 'a' ≤ c && c ≤ 'f' then c.toNat - 87
  else if 'A' ≤ c && c ≤ 'F' then c.toNat - 55
  else 0

/-- Bytes of a sequence of hexadecimal character pairs. -/
def hexPairsToBytes : List Char → List Nat
  | a :: b :: rest => (hexCharVal a * 16 + hexCharVal b) :: hexPairsToBytes rest
  | _ => []

/-- Bytes of a hexadecimal string, as Buffer.from with the hex encoding
produces. -/
def hexToBytes (s : String) : List Nat := hexPairsToBytes s.data

/-- createTransaction of TransactionBuilder, instrumented with the list
of build stages it reaches, in order: validate the message, generate the
entropy nonce, construct the encoder, marshal the sign document, invoke
the signer, assemble the transaction signature, marshal the final bytes,
and pair them with the reported signer address. -/
def createTransactionTraced (factory : EncoderFactory) (b : TransactionBuilder) (r : Nat)
    (fee : Option String) (memo : Option String) (txMsg : Option TxMsg) :
    Except TxBuilderError RawTxRequest × List BuildEvent :=
  match txMsg with
  | none => (Except.error (TxBuilderError.jsError ("txMsg should be defined.")), [])
  | some msg =>
    let entropy := genEntropy r
    let enc := factory entropy b.chainID msg (fee.getD DEFAULT_BASE_FEE) coinDenomUpokt
      (memo.getD (""))
    let txBytes := b.signer.sign (bytesToHex enc.marshalStdSignDoc)
    let marshalledTx := TxSignature.mk (hexToBytes b.signer.getPublicKey) (hexToBytes txBytes)
    (Except.ok (RawTxRequest.mk b.signer.getAddress (bytesToHex (enc.marshalStdTx marshalledTx))),
     [BuildEvent.entropyGenerated, BuildEvent.encoderConstructed, BuildEvent.signerInvoked])

/-- createTransaction of TransactionBuilder: the returned raw transaction
request or error. -/
def createTransaction (factory : EncoderFactory) (b : TransactionBuilder) (r : Nat)
    (fee : Option String) (memo : Option String) (txMsg : Option TxMsg) :
    Except TxBuilderError RawTxRequest :=
  (createTransactionTraced factory b r fee memo txMsg).1

/-- Factory of the concrete counterexample builds: a constant encoder. -/
def cexFactory : EncoderFactory := fun _ _ _ _ _ _ => TxEncoderModel.mk [] (fun _ => [])

/-- Builder of the concrete counterexample builds. -/
def cexBuilder : TransactionBuilder :=
  TransactionBuilder.mk (ProviderModel.mk fun s => s)
    (SignerModel.mk (fun _ => ("")) ("") ("")) ("mainnet")

mutual
/-- Serializable JSON-like value of the canonical stringifier, with
integer numbers (the non-integer number rendering is platform float
formatting, outside this model); arrays and objects carry their own
list structure so that all recursion is structural. -/
inductive JVal where
  | jnum (n : Int)
  | jstr (s : String)
  | jbool (b : Bool)
  | jnull
  | jarr (elems : JArr)
  | jobj (fields : JObj)
inductive JArr where
  | nil
  | cons (hd : JVal) (tl : JArr)
inductive JObj where
  | nil
  | cons (key : String) (val : JVal) (tl : JObj)
end

/-- Field list of an object. -/
def JObj.toList : JObj → List (String × JVal)
  | .nil => []
  | .cons k v tl => (k, v) :: tl.toList

/-- Object of a field list. -/
def JObj.ofList : List (String × JVal) → JObj
  | [] => .nil
  | (k, v) :: rest => .cons k v (JObj.ofList rest)

/-- Element list of an array. -/
def JArr.toList : JArr → List JVal
  | .nil => []
  | .cons x xs => x :: xs.toList

/-- Lexicographic byte-order comparison of character lists, the key
order of the canonical stringifier. -/
def charListLe : List Char → List Char → Bool
  | [], _ => true
  | _ :: _, [] => false
  | a :: as, b :: bs =>
      if a.toNat = b.toNat then charListLe as bs else decide (a.toNat < b.toNat)

/-- Lexicographic byte-order comparison of strings. -/
def strLe (s t : String) : Bool := charListLe s.data t.data

/-- Order of object fields by key. -/
def keyLe (a b : String × JVal) : Prop := strLe a.1 b.1 = true

/-- Strict order of object fields: ordered by key and with distinct
keys. -/
def keyLt (a b : String × JVal) : Prop := keyLe a b ∧ a.1 ≠ b.1

/-- Field order is decidable. -/
instance : DecidableRel keyLe :=
  fun a b => inferInstanceAs (Decidable (strLe a.1 b.1 = true))

mutual
/-- Recursive canonicalization: keys of every object are sorted at
every nesting level; array element order is untouched. -/
def sortVal : JVal → JVal
  | .jnum n => .jnum n
  | .jstr s => .jstr s
  | .jbool b => .jbool b
  | .jnull => .jnull
  | .jarr xs => .jarr (sortArr xs)
  | .jobj fs => .jobj (JObj.ofList (List.insertionSort keyLe (sortObjList fs)))
termination_by structural v => v
def sortArr : JArr → JArr
  | .nil => .nil
  | .cons x xs => .cons (sortVal x) (sortArr xs)
termination_by structural xs => xs
def sortObjList : JObj → List (String × JVal)
  | .nil => []
  | .cons k v tl => (k, sortVal v) :: sortObjList tl
termination_by structural fs => fs
end

/-- Canonicalization of one field. -/
def sortPair (p : String × JVal) : String × JVal := (p.1, sortVal p.2)

/-- JSON string escape of one character (quote and backslash; control
characters do not occur in the modelled values). -/
def escapeChar (c : Char) : String :=
  if c = '"' then ("\\\"") else if c = '\\' then ("\\\\") else String.singleton c

/-- JSON string escape. -/
def escapeString (s : String) : String := String.join (s.data.map escapeChar)

/-- JSON string literal. -/
def renderString (s : String) : String := ("\"") ++ escapeString s ++ ("\"")

mutual
/-- Plain JSON rendering of a value, preserving the field order it
carries. -/
def render : JVal → String
  | .jnum n => n.repr
  | .jstr s => renderString s
  | .jbool b => cond b ("true") ("false")
  | .jnull => ("null")
  | .jarr xs => ("[") ++ renderArr xs ++ ("]")
  | .jobj fs => ("\x7b") ++ renderObj fs ++ ("\x7d")
termination_by structural v => v
def renderArr : JArr → String
  | .nil => ""
  | .cons x .nil => render x
  | .cons x (.cons y tl) => render x ++ (",") ++ renderArr (.cons y tl)
termination_by structural xs => xs
def renderObj : JObj → String
  | .nil => ""
  | .cons k v .nil => renderString k ++ (":") ++ render v
  | .cons k v (.cons k2 v2 tl) =>
      renderString k ++ (":") ++ render v ++ (",") ++ renderObj (.cons k2 v2 tl)
termination_by structural fs => fs
end

/-- Modelled from the spec: `stringifyObjectWithSort` (packages/utils,
file sort.ts, absent from the sources; its test and section 4.1 of the
spec describe it). Object keys are sorted by lexicographic byte order at
every nesting level, array order is preserved, and scalars render as
JSON literals. -/
def stringifyObjectWithSort (v : JVal) : String := render (sortVal v)

/-- Comma join of rendered members. -/
def commaJoin : List String → String
  | [] => ""
  | [s] => s
  | s :: t :: rest => s ++ (",") ++ commaJoin (t :: rest)

mutual
/-- Key-permutation equivalence at every nesting depth: two values are
related when they are equal up to reordering the fields of any object,
with arrays related pointwise in order. An object relates to another
through a pointwise-related field list and a permutation of it. -/
inductive JEquiv : JVal → JVal → Prop where
  | num (n : Int) : JEquiv (.jnum n) (.jnum n)
  | str (s : String) : JEquiv (.jstr s) (.jstr s)
  | bool (b : Bool) : JEquiv (.jbool b) (.jbool b)
  | null : JEquiv .jnull .jnull
  | arr {xs ys} : JEquivArr xs ys → JEquiv (.jarr xs) (.jarr ys)
  | obj {fs gs l} : JEquivObj fs l → l.Perm (JObj.toList gs) → JEquiv (.jobj fs) (.jobj gs)
inductive JEquivArr : JArr → JArr → Prop where
  | nil : JEquivArr .nil .nil
  | cons {x y xs ys} : JEquiv x y → JEquivArr xs ys → JEquivArr (.cons x xs) (.cons y ys)
inductive JEquivObj : JObj → List (String × JVal) → Prop where
  | nil : JEquivObj .nil []
  | cons {k v tl q l} : k = q.1 → JEquiv v q.2 → JEquivObj tl l →
      JEquivObj (.cons k v tl) (q :: l)
end

/-- Key list of an object. -/
def keysOf : JObj → List String
  | .nil => []
  | .cons k _ tl => k :: keysOf tl

/-- Check that a key list has no duplicates. -/
def nodupKeyList : List String → Bool
  | [] => true
  | k :: ks => !(ks.contains k) && nodupKeyList ks

mutual
/-- Check that every object at every nesting depth has duplicate-free
keys, as JavaScript object values always do. -/
def nodupV : JVal → Bool
  | .jnum _ => true
  | .jstr _ => true
  | .jbool _ => true
  | .jnull => true
  | .jarr xs => nodupA xs
  | .jobj fs => nodupKeyList (keysOf fs) && nodupO fs
termination_by structural v => v
def nodupA : JArr → Bool
  | .nil => true
  | .cons x xs => nodupV x && nodupA xs
termination_by structural xs => xs
def nodupO : JObj → Bool
  | .nil => true
  | .cons _ v tl => nodupV v && nodupO tl
termination_by structural fs => fs
end

/-- Input of the canonicalization example of the spec and the test. -/
def exampleJson : JVal :=
  JVal.jobj (JObj.cons ("abc")
    (JVal.jarr (JArr.cons (JVal.jnum 3) (JArr.cons (JVal.jnum 2) (JArr.cons (JVal.jnum 1)
      JArr.nil))))
    (JObj.cons ("ab")
      (JVal.jobj (JObj.cons ("y")
        (JVal.jobj (JObj.cons ("1") (JVal.jnum 1) (JObj.cons ("3") (JVal.jnum 3)
          (JObj.cons ("2") (JVal.jnum 2) JObj.nil))))
        (JObj.cons ("z") (JVal.jstr ("3")) (JObj.cons ("x") (JVal.jstr ("1")) JObj.nil))))
      (JObj.cons ("a") (JVal.jnum 1) JObj.nil)))

/-- Expected canonical output of the example. -/
def exampleCanonical : String :=
  "\x7b\"a\":1,\"ab\":\x7b\"x\":\"1\",\"y\":\x7b\"1\":1,\"2\":2,\"3\":3\x7d,\"z\":\"3\"\x7d,\"abc\":[3,2,1]\x7d"

/-- Left value of the concrete permutation witness. -/
def permExampleLeft : JVal :=
  JVal.jobj (JObj.cons ("b") (JVal.jnum 1) (JObj.cons ("a") (JVal.jnum 2) JObj.nil))

/-- Right value of the concrete permutation witness: the same object with
its two fields swapped. -/
def permExampleRight : JVal :=
  JVal.jobj (JObj.cons ("a") (JVal.jnum 2) (JObj.cons ("b") (JVal.jnum 1) JObj.nil))

/- ===================== Theorems ===================== -/

/-- Helper: getD through drop. -/
theorem getD_drop (l : List Nat) (n i d : Nat) : (l.drop n).getD i d = l.getD (n + i) d := by
  induction l generalizing n with
  | nil => simp [List.drop]
  | cons x xs ih =>
    cases n with
    | zero => simp
    | succ m =>
      simp only [List.drop_succ_cons]
      rw [ih m]
      simp [List.getD, Nat.succ_add]

/-- C2: for 64-byte private key material the derived public key is exactly
bytes [32,64) of the input, byte for byte; other lengths fail with
InvalidKeyLengthError; the end-to-end vector holds. -/
theorem publicKeyFromPrivate_spec :
    (∀ priv : List Nat, priv.length = 64 →
      publicKeyFromPrivate priv = Except.ok (priv.drop 32) ∧
      (priv.drop 32).length = 32 ∧
      (∀ i, i < 32 → (priv.drop 32).getD i 0 = priv.getD (32 + i) 0)) ∧
    (∀ priv : List Nat, priv.length ≠ 64 →
      publicKeyFromPrivate priv = Except.error DerivationError.invalidKeyLength) ∧
    publicKeyFromPrivate vectorPrivateKey = Except.ok vectorPublicKey := by
  refine ⟨?_, ?_, ?_⟩
  · intro priv h
    refine ⟨by simp [publicKeyFromPrivate, h], by simp [h], ?_⟩
    intro i _
    exact getD_drop priv 32 i 0
  · intro priv h
    simp [publicKeyFromPrivate, h]
  · rfl

/-- Witness for C2 at the end-to-end vector. -/
theorem publicKeyFromPrivate_spec_witness :
    publicKeyFromPrivate vectorPrivateKey = Except.ok (vectorPrivateKey.drop 32) ∧
    publicKeyFromPrivate (([] : List Nat)) = Except.error DerivationError.invalidKeyLength := by
  constructor
  · exact (publicKeyFromPrivate_spec.1 vectorPrivateKey (by decide)).1
  · exact publicKeyFromPrivate_spec.2.1 ([]) (by decide)

/-- Helper: natToBytesBE always yields the requested number of bytes. -/
theorem natToBytesBE_length : ∀ k n : Nat, (natToBytesBE k n).length = k
  | 0, _ => rfl
  | k+1, n => by simp [natToBytesBE, natToBytesBE_length k]

/-- Helper: the rendered hash state is 32 bytes. -/
theorem hashToBytes_length (st : Hash8) : (hashToBytes st).length = 32 := by
  simp [hashToBytes, natToBytesBE_length]

/-- Helper: SHA-256 always yields 32 bytes. -/
theorem sha256_length (msg : List Nat) : (sha256 msg).length = 32 :=
  hashToBytes_length _

/-- Helper: hexadecimal digits below 16 are lowercase hexadecimal
characters. -/
theorem hexDigitChar_lower (d : Nat) (h : d < 16) : isLowerHexDigit (hexDigitChar d) = true := by
  interval_cases d <;> decide

/-- Helper: every character of a hexadecimal byte rendering is a lowercase
hexadecimal character. -/
theorem bytesToHex_lower (bs : List Nat) :
    ∀ c ∈ (bytesToHex bs).data, isLowerHexDigit c = true := by
  intro c hc
  have hc2 : c ∈ (bs.map byteHexChars).flatten := hc
  rw [List.mem_flatten] at hc2
  obtain ⟨l, hl, hcl⟩ := hc2
  rw [List.mem_map] at hl
  obtain ⟨b, _, rfl⟩ := hl
  simp only [byteHexChars, List.mem_cons, List.not_mem_nil, or_false] at hcl
  rcases hcl with rfl | rfl
  · exact hexDigitChar_lower _ (Nat.mod_lt _ (by norm_num))
  · exact hexDigitChar_lower _ (Nat.mod_lt _ (by norm_num))

/-- Helper: the hexadecimal rendering has two characters per byte. -/
theorem bytesToHex_length : ∀ bs : List Nat, (bytesToHex bs).length = 2 * bs.length
  | [] => rfl
  | b :: bs => by
    have ih := bytesToHex_length bs
    rw [bytesToHex, String.length_mk] at ih ⊢
    simp only [List.map_cons, List.flatten_cons, List.length_append, ih, byteHexChars,
      List.length_cons, List.length_nil]
    omega

/-- C1: for every 32-byte public key the derived address is the first 20
bytes of the SHA-256 hash of the key rendered as 40 lowercase hexadecimal
characters, derivation is deterministic, any other input length fails with
InvalidKeyLengthError, and the end-to-end vector holds. -/
theorem getAddressFromPublicKey_spec :
    (∀ pub : List Nat, pub.length = 32 →
      getAddressFromPublicKey pub = Except.ok (bytesToHex ((sha256 pub).take 20)) ∧
      ((sha256 pub).take 20).length = 20 ∧
      (bytesToHex ((sha256 pub).take 20)).length = 40 ∧
      (∀ c ∈ (bytesToHex ((sha256 pub).take 20)).data, isLowerHexDigit c = true)) ∧
    (∀ pub₁ pub₂ : List Nat, pub₁ = pub₂ →
      getAddressFromPublicKey pub₁ = getAddressFromPublicKey pub₂) ∧
    (∀ pub : List Nat, pub.length ≠ 32 →
      getAddressFromPublicKey pub = Except.error DerivationError.invalidKeyLength) ∧
    getAddressFromPublicKey vectorPublicKey = Except.ok (vectorAddress) := by
  refine ⟨?_, ?_, ?_, by decide⟩
  · intro pub h
    have htake : ((sha256 pub).take 20).length = 20 := by
      rw [List.length_take, sha256_length]
      decide
    refine ⟨by simp [getAddressFromPublicKey, h], htake, ?_, bytesToHex_lower _⟩
    rw [bytesToHex_length, htake]
  · intro pub₁ pub₂ h
    rw [h]
  · intro pub h
    simp [getAddressFromPublicKey, h]

/-- Witness for C1 at the end-to-end vector and a wrong-length input. -/
theorem getAddressFromPublicKey_spec_witness :
    getAddressFromPublicKey vectorPublicKey =
      Except.ok (bytesToHex ((sha256 vectorPublicKey).take 20)) ∧
    getAddressFromPublicKey ([]) = Except.error DerivationError.invalidKeyLength := by
  constructor
  · exact (getAddressFromPublicKey_spec.1 vectorPublicKey (by decide)).1
  · exact getAddressFromPublicKey_spec.2.2.1 ([]) (by decide)

/-- C9: getType returns app exactly when the node response lacks
service_url and the app response has max_relays, node exactly in the
mirrored case, and account in every other case, never failing. -/
theorem getType_spec :
    ∀ nodeFields appFields : List String,
      (getType nodeFields appFields = ("app") ↔
        (nodeFields.contains ("service_url") = false ∧
         appFields.contains ("max_relays") = true)) ∧
      (getType nodeFields appFields = ("node") ↔
        (nodeFields.contains ("service_url") = true ∧
         appFields.contains ("max_relays") = false)) ∧
      ((nodeFields.contains ("service_url") = appFields.contains ("max_relays")) →
        getType nodeFields appFields = ("account")) := by
  intro nodeFields appFields
  cases hn : nodeFields.contains ("service_url") <;>
    cases ha : appFields.contains ("max_relays") <;>
      simp only [getType, hn, ha] <;> refine ⟨?_, ?_, ?_⟩ <;> decide

/-- Witness for C9 on concrete responses: a node response with service_url
and an app response without max_relays yield node. -/
theorem getType_spec_witness :
    getType ([("service_url")]) ([]) = ("node") := by
  have h := (getType_spec ([("service_url")]) ([])).2.1
  exact h.mpr (by decide)

/-- C10: a URL without credentials passes through unchanged with no
basicAuth; a URL with credentials is returned with the credentials
removed, together with Basic followed by the base64 of username colon
password; the test vector with scott and tiger holds. -/
theorem extractBasicAuth_spec :
    (∀ u : URLModel, u.username = "" → u.password = "" →
      ExtractBasicAuth u = (urlToString u, none)) ∧
    (∀ u : URLModel, ¬(u.username = "" ∧ u.password = "") →
      (ExtractBasicAuth u).1 = u.scheme ++ ("://") ++ u.rest ∧
      (ExtractBasicAuth u).2 =
        some (("Basic ") ++ base64Encode (stringToBytes (u.username ++ (":") ++ u.password)))) ∧
    ExtractBasicAuth
        (URLModel.mk ("https") ("scott") ("tiger") ("mainnet.rpc.grove.city/v1/12345678")) =
      (("https://mainnet.rpc.grove.city/v1/12345678"), some (("Basic c2NvdHQ6dGlnZXI="))) := by
  refine ⟨?_, ?_, by decide⟩
  · intro u h1 h2
    simp [ExtractBasicAuth, h1, h2]
  · intro u h
    have hb : (u.username = "" && u.password = "") = false := by
      cases hcase : (u.username = "" && u.password = "") with
      | false => rfl
      | true =>
        rw [Bool.and_eq_true] at hcase
        exact absurd ⟨of_decide_eq_true hcase.1, of_decide_eq_true hcase.2⟩ h
    constructor
    · simp [ExtractBasicAuth, hb, urlToString, credPart]
    · simp [ExtractBasicAuth, hb]

/-- Witness for C10 at concrete URLs with and without credentials. -/
theorem extractBasicAuth_spec_witness :
    ExtractBasicAuth (URLModel.mk ("https") ("") ("") ("localhost:8082")) =
      (urlToString (URLModel.mk ("https") ("") ("") ("localhost:8082")), none) ∧
    (ExtractBasicAuth
        (URLModel.mk ("https") ("scott") ("tiger") ("mainnet.rpc.grove.city/v1/12345678"))).2 =
      some (("Basic ") ++ base64Encode (stringToBytes (("scott") ++ (":") ++ ("tiger")))) := by
  constructor
  · exact extractBasicAuth_spec.1 (URLModel.mk ("https") ("") ("") ("localhost:8082")) rfl rfl
  · exact (extractBasicAuth_spec.2.1
      (URLModel.mk ("https") ("scott") ("tiger") ("mainnet.rpc.grove.city/v1/12345678"))
      (by intro h; exact absurd h.1 (by decide))).2

/-- Helper: mapping a function that fixes every member is the identity. -/
theorem map_id_of_forall {α : Type} (f : α → α) :
    ∀ l : List α, (∀ a ∈ l, f a = a) → l.map f = l
  | [], _ => rfl
  | x :: xs, h => by
    rw [List.map_cons, h x (List.mem_cons_self x xs),
      map_id_of_forall f xs (fun a ha => h a (List.mem_cons_of_mem x ha))]

/-- Helper: with enough fuel the fuel-driven digits agree with the
library digits in base ten. -/
theorem decimalDigitsGo_eq : ∀ fuel n : Nat, n ≤ fuel → decimalDigitsGo fuel n = Nat.digits 10 n
  | 0, 0, _ => by simp [decimalDigitsGo]
  | 0, n+1, h => absurd h (by omega)
  | _+1, 0, _ => by simp [decimalDigitsGo]
  | fuel+1, n+1, h => by
    rw [decimalDigitsGo,
      decimalDigitsGo_eq fuel ((n+1) / 10) (by
        have := Nat.div_lt_self (Nat.succ_pos n) (by norm_num : (1:ℕ) < 10)
        omega),
      ← Nat.digits_def' (by norm_num : (1:ℕ) < 10) (Nat.succ_pos n)]

/-- Helper: decimalDigits agrees with the library digits in base ten. -/
theorem decimalDigits_eq (n : Nat) : decimalDigits n = Nat.digits 10 n :=
  decimalDigitsGo_eq n n (Nat.le_refl n)

/-- Helper: the digit value reverses the digit character on digits below
ten. -/
theorem charDigitVal_digitChar (d : Nat) (h : d < 10) : charDigitVal (digitChar d) = d := by
  interval_cases d <;> decide

/-- Helper: digit characters of digits below ten are decimal digits. -/
theorem isDecDigit_digitChar (d : Nat) (h : d < 10) : isDecDigit (digitChar d) = true := by
  interval_cases d <;> decide

/-- Helper: every character of a decimal rendering is a decimal digit. -/
theorem decimalString_digits (n : Nat) :
    ∀ c ∈ (decimalString n).data, isDecDigit c = true := by
  by_cases h : n = 0
  · subst h
    decide
  · intro c hc
    simp only [decimalString, if_neg h] at hc
    have hc2 : c ∈ ((decimalDigits n).map digitChar).reverse := hc
    rw [List.mem_reverse, List.mem_map] at hc2
    obtain ⟨d, hd, rfl⟩ := hc2
    rw [decimalDigits_eq] at hd
    exact isDecDigit_digitChar d (Nat.digits_lt_base (by norm_num) hd)

/-- Helper: a decimal rendering is never the empty string. -/
theorem decimalString_ne_nil (n : Nat) : (decimalString n).data ≠ [] := by
  by_cases h : n = 0
  · subst h
    decide
  · simp only [decimalString, if_neg h]
    simp only [ne_eq, List.reverse_eq_nil_iff, List.map_eq_nil_iff]
    rw [decimalDigits_eq]
    exact Nat.digits_ne_nil_iff_ne_zero.mpr h

/-- Helper: parsing a decimal rendering recovers the number exactly. -/
theorem parseDecimal_decimalString (n : Nat) : parseDecimal (decimalString n) = some n := by
  by_cases h : n = 0
  · subst h
    decide
  · have hdata : (decimalString n).data = ((decimalDigits n).map digitChar).reverse := by
      simp [decimalString, if_neg h]
    have hnonempty := decimalString_ne_nil n
    have hall := decimalString_digits n
    have hcond : (!(decimalString n).data.isEmpty && (decimalString n).data.all isDecDigit)
        = true := by
      rw [Bool.and_eq_true]
      constructor
      · have hemp : (decimalString n).data.isEmpty = false := by
          cases hl : (decimalString n).data with
          | nil => exact absurd hl hnonempty
          | cons x xs => rfl
        rw [hemp]
        rfl
      · rw [List.all_eq_true]
        intro c hc
        exact hall c hc
    rw [parseDecimal, if_pos hcond]
    congr 1
    rw [hdata, List.map_reverse, List.reverse_reverse, List.map_map]
    have hmap : (decimalDigits n).map (charDigitVal ∘ digitChar) = decimalDigits n := by
      apply map_id_of_forall
      intro d hd
      rw [decimalDigits_eq] at hd
      exact charDigitVal_digitChar d (Nat.digits_lt_base (by norm_num) hd)
    rw [hmap, decimalDigits_eq, Nat.ofDigits_digits]

/-- C6: for every sampled value up to Number.MAX_SAFE_INTEGER the entropy
nonce of createTransaction is the plain decimal string of that value:
nonempty, made only of decimal digit characters (no sign, no exponent, no
fractional part), and parsing it back recovers the sampled value without
loss. -/
theorem genEntropy_spec :
    ∀ r : Nat, r ≤ maxSafeInteger →
      genEntropy r = decimalString r ∧
      parseDecimal (genEntropy r) = some r ∧
      (genEntropy r).data ≠ [] ∧
      (∀ c ∈ (genEntropy r).data, isDecDigit c = true) := by
  intro r _
  have hgen : genEntropy r = decimalString r := by
    rw [genEntropy, jsNumberOfDecimal, parseDecimal_decimalString]
    rfl
  refine ⟨hgen, ?_, ?_, ?_⟩
  · rw [hgen, parseDecimal_decimalString]
  · rw [hgen]
    exact decimalString_ne_nil r
  · rw [hgen]
    exact decimalString_digits r

/-- Witness for C6 at a concrete sampled value. -/
theorem genEntropy_spec_witness :
    genEntropy 9007199254740991 = decimalString 9007199254740991 ∧
    parseDecimal (genEntropy 9007199254740991) = some 9007199254740991 := by
  have h := genEntropy_spec 9007199254740991 (by decide)
  exact ⟨h.1, h.2.1⟩

/-- C4: a successful createTransaction returns the reported signer
address paired with the hex rendering of the final transaction bytes that
the encoder assembles from the reported public key and the returned
signature bytes. -/
theorem createTransaction_spec :
    ∀ (factory : EncoderFactory) (b : TransactionBuilder) (r : Nat)
      (fee memo : Option String) (msg : TxMsg),
      createTransaction factory b r fee memo (some msg) =
        Except.ok (RawTxRequest.mk b.signer.getAddress
          (bytesToHex ((factory (genEntropy r) b.chainID msg (fee.getD DEFAULT_BASE_FEE)
              coinDenomUpokt (memo.getD (""))).marshalStdTx
            (TxSignature.mk (hexToBytes b.signer.getPublicKey)
              (hexToBytes (b.signer.sign (bytesToHex
                (factory (genEntropy r) b.chainID msg (fee.getD DEFAULT_BASE_FEE)
                  coinDenomUpokt (memo.getD (""))).marshalStdSignDoc))))))) := by
  intro factory b r fee memo msg
  rfl

/-- C5 amended: an absent message fails the build synchronously with a
plain Error carrying the message txMsg should be defined, before the
entropy is generated, the encoder is constructed, or the signer is
invoked. -/
theorem createTransaction_missing_msg :
    ∀ (factory : EncoderFactory) (b : TransactionBuilder) (r : Nat) (fee memo : Option String),
      createTransactionTraced factory b r fee memo none =
        (Except.error (TxBuilderError.jsError ("txMsg should be defined.")),
         ([] : List BuildEvent)) := by
  intro _ _ _ _ _
  rfl

/-- C5 counterexample: at a concrete build with an absent message the
error is the plain Error of the code, not the MissingMessageError the
claim names. -/
theorem createTransaction_missing_msg_cex :
    createTransaction cexFactory cexBuilder 0 none none none ≠
      Except.error TxBuilderError.missingMessage ∧
    createTransaction cexFactory cexBuilder 0 none none none =
      Except.error (TxBuilderError.jsError ("txMsg should be defined.")) := by
  constructor
  · decide
  · decide

/-- C7: setChainID succeeds exactly on mainnet, testnet and localnet,
after which getChainID returns the new identifier, and fails with
InvalidChainIDError on every other value. -/
theorem setChainID_spec :
    ∀ (b : TransactionBuilder) (id : String),
      ((id = "mainnet" ∨ id = "testnet" ∨ id = "localnet") →
        setChainID b id = Except.ok (TransactionBuilder.mk b.provider b.signer id) ∧
        getChainID (TransactionBuilder.mk b.provider b.signer id) = id) ∧
      (¬(id = "mainnet" ∨ id = "testnet" ∨ id = "localnet") →
        setChainID b id = Except.error (TxBuilderError.invalidChainID
          ("Invalid ChainID. Must be \"mainnet\", \"testnet\", or \"localnet\"."))) := by
  intro b id
  constructor
  · intro h
    exact ⟨by simp [setChainID, h], rfl⟩
  · intro h
    simp [setChainID, h]

/-- Witness for C7 at a valid and an invalid chain identifier. -/
theorem setChainID_spec_witness :
    ∃ b : TransactionBuilder,
      setChainID b ("testnet") = Except.ok (TransactionBuilder.mk b.provider b.signer ("testnet")) ∧
      setChainID b ("devnet") = Except.error (TxBuilderError.invalidChainID
        ("Invalid ChainID. Must be \"mainnet\", \"testnet\", or \"localnet\".")) := by
  refine ⟨TransactionBuilder.mk (ProviderModel.mk fun s => s)
    (SignerModel.mk (fun s => s) ("") ("")) ("mainnet"), ?_, ?_⟩
  · exact ((setChainID_spec _ ("testnet")).1 (Or.inr (Or.inl rfl))).1
  · exact (setChainID_spec _ ("devnet")).2 (by simp)

/-- C8: constructing a TransactionBuilder with an absent provider fails
with NoProviderError, with a provider but an absent signer fails with
NoSignerError, and with both present succeeds storing exactly the given
collaborators and chain identifier. -/
theorem mkTransactionBuilder_spec :
    (∀ (signer : Option SignerModel) (chainID : String),
      mkTransactionBuilder none signer chainID =
        Except.error (TxBuilderError.noProvider ("Please add a provider."))) ∧
    (∀ (p : ProviderModel) (chainID : String),
      mkTransactionBuilder (some p) none chainID =
        Except.error (TxBuilderError.noSigner ("Please add a signer."))) ∧
    (∀ (p : ProviderModel) (s : SignerModel) (chainID : String),
      mkTransactionBuilder (some p) (some s) chainID =
        Except.ok (TransactionBuilder.mk p s chainID)) := by
  exact ⟨fun _ _ => rfl, fun _ _ => rfl, fun _ _ _ => rfl⟩



/-- Helper: character code injectivity. -/
theorem char_toNat_inj {a b : Char} (h : a.toNat = b.toNat) : a = b := by
  have : a.val = b.val := by
    apply UInt32.eq_of_toBitVec_eq
    apply BitVec.eq_of_toNat_eq
    exact h
  exact Char.eq_of_val_eq this

/-- Helper: the byte-order comparison is total. -/
theorem charListLe_total : ∀ as bs : List Char, charListLe as bs = true ∨ charListLe bs as = true
  | [], _ => Or.inl rfl
  | _ :: _, [] => Or.inr rfl
  | a :: as, b :: bs => by
    by_cases h : a.toNat = b.toNat
    · simp only [charListLe, if_pos h, if_pos h.symm]
      exact charListLe_total as bs
    · have h2 : ¬b.toNat = a.toNat := fun hh => h hh.symm
      simp only [charListLe, if_neg h, if_neg h2, decide_eq_true_eq]
      omega

/-- Helper: the byte-order comparison is transitive. -/
theorem charListLe_trans :
    ∀ as bs cs : List Char, charListLe as bs = true → charListLe bs cs = true →
      charListLe as cs = true
  | [], _, _, _, _ => rfl
  | _ :: _, [], _, h1, _ => by cases h1
  | _ :: _, _ :: _, [], _, h2 => by cases h2
  | a :: as, b :: bs, c :: cs, h1, h2 => by
    by_cases hab : a.toNat = b.toNat <;> by_cases hbc : b.toNat = c.toNat
    · rw [charListLe, if_pos (hab.trans hbc)]
      rw [charListLe, if_pos hab] at h1
      rw [charListLe, if_pos hbc] at h2
      exact charListLe_trans as bs cs h1 h2
    · rw [charListLe, if_neg hbc, decide_eq_true_eq] at h2
      rw [charListLe, if_neg (by omega), decide_eq_true_eq]
      omega
    · rw [charListLe, if_neg hab, decide_eq_true_eq] at h1
      rw [charListLe, if_neg (by omega), decide_eq_true_eq]
      omega
    · rw [charListLe, if_neg hab, decide_eq_true_eq] at h1
      rw [charListLe, if_neg hbc, decide_eq_true_eq] at h2
      rw [charListLe, if_neg (by omega), decide_eq_true_eq]
      omega

/-- Helper: the byte-order comparison is antisymmetric. -/
theorem charListLe_antisymm :
    ∀ as bs : List Char, charListLe as bs = true → charListLe bs as = true → as = bs
  | [], [], _, _ => rfl
  | [], _ :: _, _, h2 => by cases h2
  | _ :: _, [], h1, _ => by cases h1
  | a :: as, b :: bs, h1, h2 => by
    by_cases hab : a.toNat = b.toNat
    · rw [charListLe, if_pos hab] at h1
      rw [charListLe, if_pos (hab.symm)] at h2
      rw [char_toNat_inj hab, charListLe_antisymm as bs h1 h2]
    · rw [charListLe, if_neg hab, decide_eq_true_eq] at h1
      rw [charListLe, if_neg (fun hh => hab hh.symm), decide_eq_true_eq] at h2
      omega

/-- Helper: string byte-order comparison is antisymmetric. -/
theorem strLe_antisymm {s t : String} (h1 : strLe s t = true) (h2 : strLe t s = true) : s = t := by
  cases s with
  | mk d1 =>
    cases t with
    | mk d2 =>
      have : d1 = d2 := charListLe_antisymm d1 d2 h1 h2
      rw [this]

/-- Helper: the strict field order is antisymmetric. -/
theorem instIsAntisymmKeyLt : IsAntisymm (String × JVal) keyLt :=
  ⟨fun _ _ h1 h2 => absurd (strLe_antisymm h1.1 h2.1) h1.2⟩

/-- Helper: field list round trip. -/
theorem toList_ofList : ∀ l : List (String × JVal), (JObj.ofList l).toList = l
  | [] => rfl
  | (k, v) :: rest => by rw [JObj.ofList, JObj.toList, toList_ofList rest]

/-- Helper: sortObjList canonicalizes each field of the field list. -/
theorem sortObjList_toList : ∀ fs : JObj, sortObjList fs = fs.toList.map sortPair
  | .nil => rfl
  | .cons k v tl => by
    rw [sortObjList, JObj.toList, List.map_cons, sortObjList_toList tl]
    rfl

/-- Helper: sortObjList after ofList maps field canonicalization. -/
theorem sortObjList_ofList (l : List (String × JVal)) :
    sortObjList (JObj.ofList l) = l.map sortPair := by
  rw [sortObjList_toList, toList_ofList]

/-- Helper: field canonicalization keeps keys. -/
theorem map_fst_sortPair (l : List (String × JVal)) :
    (l.map sortPair).map Prod.fst = l.map Prod.fst := by
  rw [List.map_map]
  exact List.map_congr_left (fun _ _ => rfl)

/-- Helper: keys of an object are the first components of its field
list. -/
theorem keysOf_toList : ∀ fs : JObj, keysOf fs = fs.toList.map Prod.fst
  | .nil => rfl
  | .cons k v tl => by rw [keysOf, JObj.toList, List.map_cons, keysOf_toList tl]

/-- Helper: the boolean duplicate check implies Nodup. -/
theorem nodup_of_nodupKeyList : ∀ ks : List String, nodupKeyList ks = true → ks.Nodup
  | [], _ => List.nodup_nil
  | k :: ks, h => by
    rw [nodupKeyList, Bool.and_eq_true] at h
    rw [List.nodup_cons]
    refine ⟨?_, nodup_of_nodupKeyList ks h.2⟩
    intro hmem
    have hc : ks.contains k = true := by simpa using hmem
    rw [hc] at h
    exact absurd h.1 (by decide)

/-- Helper: sorting a field list with duplicate-free keys yields a list
that is strictly ordered by key. -/
theorem sorted_keyLt_insertionSort (l : List (String × JVal))
    (h : (l.map Prod.fst).Nodup) :
    (List.insertionSort keyLe l).Pairwise keyLt := by
  haveI : IsTotal (String × JVal) keyLe :=
    ⟨fun a b => charListLe_total a.1.data b.1.data⟩
  haveI : IsTrans (String × JVal) keyLe :=
    ⟨fun a b c h1 h2 => charListLe_trans a.1.data b.1.data c.1.data h1 h2⟩
  have hs : List.Sorted keyLe (List.insertionSort keyLe l) :=
    List.sorted_insertionSort keyLe l
  have hperm : (List.insertionSort keyLe l).Perm l := List.perm_insertionSort keyLe l
  have hn : ((List.insertionSort keyLe l).map Prod.fst).Nodup :=
    ((hperm.map Prod.fst).nodup_iff).mpr h
  have hne : (List.insertionSort keyLe l).Pairwise (fun a b => a.1 ≠ b.1) :=
    List.pairwise_map.mp hn
  exact (hs.and hne).imp (fun h => h)

/-- Helper: permuted field lists with duplicate-free keys sort to the
same list. -/
theorem insertionSort_eq_of_perm (l₁ l₂ : List (String × JVal)) (hp : l₁.Perm l₂)
    (h : (l₁.map Prod.fst).Nodup) :
    List.insertionSort keyLe l₁ = List.insertionSort keyLe l₂ := by
  haveI := instIsAntisymmKeyLt
  have h₂ : (l₂.map Prod.fst).Nodup := ((hp.map Prod.fst).nodup_iff).mp h
  refine List.eq_of_perm_of_sorted ?_ (sorted_keyLt_insertionSort l₁ h)
    (sorted_keyLt_insertionSort l₂ h₂)
  exact ((List.perm_insertionSort keyLe l₁).trans hp).trans
    (List.perm_insertionSort keyLe l₂).symm

/-- Helper: sorting a sorted field list changes nothing. -/
theorem insertionSort_idem (l : List (String × JVal)) :
    List.insertionSort keyLe (List.insertionSort keyLe l) = List.insertionSort keyLe l := by
  haveI : IsTotal (String × JVal) keyLe :=
    ⟨fun a b => charListLe_total a.1.data b.1.data⟩
  haveI : IsTrans (String × JVal) keyLe :=
    ⟨fun a b c h1 h2 => charListLe_trans a.1.data b.1.data c.1.data h1 h2⟩
  exact List.Sorted.insertionSort_eq (List.sorted_insertionSort keyLe l)

mutual
/-- Helper: canonicalization is idempotent at the value level. -/
theorem sortVal_idem : ∀ v : JVal, sortVal (sortVal v) = sortVal v
  | .jnum _ => rfl
  | .jstr _ => rfl
  | .jbool _ => rfl
  | .jnull => rfl
  | .jarr xs => by
    simp only [sortVal]
    rw [sortArr_idem xs]
  | .jobj fs => by
    simp only [sortVal]
    congr 1
    rw [sortObjList_ofList]
    have hfix : (List.insertionSort keyLe (sortObjList fs)).map sortPair
        = List.insertionSort keyLe (sortObjList fs) := by
      apply map_id_of_forall
      intro p hp
      have hp2 : p ∈ sortObjList fs := (List.mem_insertionSort keyLe).mp hp
      rw [sortObjList_toList, List.mem_map] at hp2
      obtain ⟨q, hq, rfl⟩ := hp2
      show (q.1, sortVal (sortVal q.2)) = (q.1, sortVal q.2)
      rw [sortObj_vals fs q hq]
    rw [hfix, insertionSort_idem]
theorem sortArr_idem : ∀ xs : JArr, sortArr (sortArr xs) = sortArr xs
  | .nil => rfl
  | .cons x xs => by
    simp only [sortArr]
    rw [sortVal_idem x, sortArr_idem xs]
theorem sortObj_vals : ∀ fs : JObj, ∀ q ∈ JObj.toList fs, sortVal (sortVal q.2) = sortVal q.2
  | .nil => by
    intro q hq
    simp [JObj.toList] at hq
  | .cons k v tl => by
    intro q hq
    simp only [JObj.toList, List.mem_cons] at hq
    rcases hq with rfl | hq
    · exact sortVal_idem v
    · exact sortObj_vals tl q hq
end

mutual
/-- Helper: key-permutation equivalent values with duplicate-free keys
canonicalize to the same value. -/
theorem jeqV_sortVal : ∀ {u v : JVal}, JEquiv u v → nodupV u = true → sortVal u = sortVal v
  | _, _, .num _, _ => rfl
  | _, _, .str _, _ => rfl
  | _, _, .bool _, _ => rfl
  | _, _, .null, _ => rfl
  | _, _, .arr h, hn => by
    simp only [sortVal]
    rw [jeqA_sortArr h hn]
  | _, _, .obj hobj hperm, hn => by
    rw [nodupV, Bool.and_eq_true] at hn
    simp only [sortVal]
    congr 1
    obtain ⟨hso, hkeys⟩ := jeqO_sortList hobj hn.2
    congr 1
    apply insertionSort_eq_of_perm
    · rw [hso, sortObjList_toList]
      exact hperm.map sortPair
    · rw [hso, map_fst_sortPair, ← hkeys]
      exact nodup_of_nodupKeyList _ hn.1
theorem jeqA_sortArr : ∀ {xs ys : JArr}, JEquivArr xs ys → nodupA xs = true →
    sortArr xs = sortArr ys
  | _, _, .nil, _ => rfl
  | _, _, .cons hv htl, hn => by
    rw [nodupA, Bool.and_eq_true] at hn
    simp only [sortArr]
    rw [jeqV_sortVal hv hn.1, jeqA_sortArr htl hn.2]
theorem jeqO_sortList : ∀ {fs : JObj} {l}, JEquivObj fs l → nodupO fs = true →
    sortObjList fs = l.map sortPair ∧ keysOf fs = l.map Prod.fst
  | _, _, .nil, _ => ⟨rfl, rfl⟩
  | _, _, .cons hk hv htl, hn => by
    rw [nodupO, Bool.and_eq_true] at hn
    obtain ⟨ih1, ih2⟩ := jeqO_sortList htl hn.2
    constructor
    · rw [sortObjList, ih1, List.map_cons]
      rw [jeqV_sortVal hv hn.1, hk]
      rfl
    · rw [keysOf, ih2, List.map_cons, hk]
end

/-- Helper: canonicalizing an array canonicalizes each element in
place. -/
theorem sortArr_toList : ∀ xs : JArr, (sortArr xs).toList = xs.toList.map sortVal
  | .nil => rfl
  | .cons x xs => by
    rw [sortArr, JArr.toList, JArr.toList, List.map_cons, sortArr_toList xs]

/-- Helper: array rendering is the comma join of element renderings in
order. -/
theorem renderArr_eq : ∀ xs : JArr, renderArr xs = commaJoin (xs.toList.map render)
  | .nil => rfl
  | .cons x .nil => rfl
  | .cons x (.cons y tl) => by
    simp only [renderArr, JArr.toList, List.map_cons, commaJoin]
    rw [renderArr_eq (.cons y tl)]
    simp only [JArr.toList, List.map_cons]

/-- Helper: the canonical string of an array is the bracketed comma
join of the canonical strings of its elements, in their original
order. -/
theorem stringify_arr_order (xs : JArr) :
    stringifyObjectWithSort (JVal.jarr xs) =
      ("[") ++ commaJoin (xs.toList.map stringifyObjectWithSort) ++ ("]") := by
  simp only [stringifyObjectWithSort, sortVal, render]
  rw [renderArr_eq, sortArr_toList, List.map_map]
  rfl

/-- C3: the canonical stringifier is idempotent (canonicalizing the
parsed form of an already-canonical string, which is the key-sorted
value, yields the same string), invariant under key permutation at every
nesting depth on duplicate-free keys, preserves array element order
exactly, and reproduces the canonicalization example of the spec. -/
theorem stringifyObjectWithSort_spec :
    (∀ v : JVal, stringifyObjectWithSort (sortVal v) = stringifyObjectWithSort v) ∧
    (∀ u v : JVal, JEquiv u v → nodupV u = true →
      stringifyObjectWithSort u = stringifyObjectWithSort v) ∧
    (∀ xs : JArr, stringifyObjectWithSort (JVal.jarr xs) =
      ("[") ++ commaJoin (xs.toList.map stringifyObjectWithSort) ++ ("]")) ∧
    stringifyObjectWithSort exampleJson = exampleCanonical := by
  refine ⟨?_, ?_, stringify_arr_order, by decide⟩
  · intro v
    simp only [stringifyObjectWithSort]
    rw [sortVal_idem]
  · intro u v h hn
    simp only [stringifyObjectWithSort]
    rw [jeqV_sortVal h hn]

/-- Witness for C3: the two-field object with keys b and a, against its
key-permuted form, canonicalizes identically. -/
theorem stringifyObjectWithSort_spec_witness :
    stringifyObjectWithSort permExampleLeft = stringifyObjectWithSort permExampleRight :=
  stringifyObjectWithSort_spec.2.1 permExampleLeft permExampleRight
    (JEquiv.obj
      (JEquivObj.cons rfl (JEquiv.num 1) (JEquivObj.cons rfl (JEquiv.num 2) JEquivObj.nil))
      (List.Perm.swap _ _ _))
    (by decide)

end PocketJs
